import Mathlib

/-!
Shallow embedding of the DNS server in `app/main.go` of
`codecrafters-dns-server-go`.

Go strings are byte sequences, modelled as `List Nat` (each element a byte
value `< 256`); byte buffers likewise.  Machine integers are modelled as
`Nat` with explicit `% 2^w` at the points where the Go code performs a
narrowing conversion (`byte(...)`, `uint16(...)`).  The `bytes.Reader` is
modelled by explicit position passing.  Go's unbounded recursion in
`parseName` is modelled with a fuel parameter; a distinguished `fuelOut`
result marks executions that exceed the fuel, so genuine non-termination
of the Go code shows up as `fuelOut` for every fuel value.
-/

namespace DNS

/-- The Go `DNSMessage.Header` struct (all fields unsigned integers). -/
structure Header where
  ID : Nat
  QR : Nat
  OPCODE : Nat
  AA : Nat
  TC : Nat
  RD : Nat
  RA : Nat
  Z : Nat
  RCODE : Nat
  QDCOUNT : Nat
  ANCOUNT : Nat
  NSCOUNT : Nat
  ARCOUNT : Nat
  deriving Repr, DecidableEq

/-- The Go `Question` struct; `Name` is a Go string (byte list). -/
structure Question where
  Name : List Nat
  Typ : Nat
  Class : Nat
  deriving Repr, DecidableEq

/-- The Go `RR` (resource record) struct. -/
structure RR where
  Name : List Nat
  Typ : Nat
  Class : Nat
  TTL : Nat
  Length : Nat
  Data : List Nat
  deriving Repr, DecidableEq

/-- The Go `DNSMessage` struct (header, questions, answers). -/
structure DNSMessage where
  header : Header
  Questions : List Question
  Answer : List RR
  deriving Repr, DecidableEq

/-- Go `newRR`: answer record with type 1, class 1, TTL 60 and the fixed
4-byte payload `"\x08\x08\x08\x08"`. -/
def newRR (name : List Nat) : RR :=
  { Name := name, Typ := 1, Class := 1, TTL := 60, Length := 4,
    Data := [8, 8, 8, 8] }

/-- Go `newQuestion`: question with type 1 and class 1. -/
def newQuestion (name : List Nat) : Question :=
  { Name := name, Typ := 1, Class := 1 }

/-- Go `strings.Split(s, ".")` specialised to the dot byte 46: the list of
chunks between dots (the empty string splits to one empty chunk). -/
def splitOnDot : List Nat → List (List Nat)
  | [] => [[]]
  | c :: rest =>
    if c = 46 then [] :: splitOnDot rest
    else
      match splitOnDot rest with
      | [] => [[c]]
      | p :: ps => (c :: p) :: ps

/-- Go `strings.Join(parts, ".")` for byte-list strings. -/
def joinDots : List (List Nat) → List Nat
  | [] => []
  | [p] => p
  | p :: q :: ps => p ++ 46 :: joinDots (q :: ps)

/-- Big-endian bytes of a `uint16` value, as written by
`binary.BigEndian.PutUint16` / `binary.Write`. -/
def u16be (v : Nat) : List Nat := [v >>> 8 % 256, v % 256]

/-- Big-endian bytes of a `uint32` value. -/
def u32be (v : Nat) : List Nat :=
  [v >>> 24 % 256, v >>> 16 % 256, v >>> 8 % 256, v % 256]

/-- Go `serializeDomain`: each dot-separated label emitted as a length
octet (`byte(len(label))`, hence `% 256`) followed by the label bytes,
terminated by a zero octet. -/
def serializeDomain (domain : List Nat) : List Nat :=
  (List.map (fun l => (l.length % 256) :: l) (splitOnDot domain)).flatten ++ [0]

/-- Go `Question.serialize`. -/
def Question.serialize (q : Question) : List Nat :=
  serializeDomain q.Name ++ u16be q.Typ ++ u16be q.Class

/-- Go `RR.serialize`: note the data-length field is written as
`uint16(len(r.Data))` — the in-memory `Length` field is not consulted. -/
def RR.serialize (r : RR) : List Nat :=
  serializeDomain r.Name ++ u16be r.Typ ++ u16be r.Class ++ u32be r.TTL ++
    u16be (r.Data.length % 65536) ++ r.Data

/-- Go `Header.serialize`: 12 bytes; byte 2 packs QR|OPCODE|AA|TC|RD and
byte 3 packs RA|Z|RCODE, with each shift performed in `uint8` arithmetic
(hence the `% 256`). -/
def Header.serialize (h : Header) : List Nat :=
  [h.ID >>> 8 % 256, h.ID % 256,
   ((h.QR <<< 7) % 256) ||| ((h.OPCODE <<< 3) % 256) ||| ((h.AA <<< 2) % 256)
     ||| ((h.TC <<< 1) % 256) ||| (h.RD % 256),
   ((h.RA <<< 7) % 256) ||| ((h.Z <<< 4) % 256) ||| (h.RCODE % 256),
   h.QDCOUNT >>> 8 % 256, h.QDCOUNT % 256,
   h.ANCOUNT >>> 8 % 256, h.ANCOUNT % 256,
   h.NSCOUNT >>> 8 % 256, h.NSCOUNT % 256,
   h.ARCOUNT >>> 8 % 256, h.ARCOUNT % 256]

/-- Go `DNSMessage.serialize`: header, then questions, then answers. -/
def DNSMessage.serialize (m : DNSMessage) : List Nat :=
  m.header.serialize ++ (m.Questions.map Question.serialize).flatten ++
    (m.Answer.map RR.serialize).flatten

/-- Go `generateResponse`: echoes ID/OPCODE/RD/RA, sets QR=1, zeroes
AA/TC/Z, RCODE by the opcode switch, and rebuilds the question and answer
lists from the request's question names via `newQuestion` / `newRR`. -/
def generateResponse (dnsRequest : DNSMessage) : DNSMessage :=
  let responseRCODE : Nat :=
    match dnsRequest.header.OPCODE with
    | 0 => 0
    | _ => 4
  let a := dnsRequest.Questions.foldl (fun acc reqQ => acc ++ [newRR reqQ.Name]) []
  let q := dnsRequest.Questions.foldl (fun acc reqQ => acc ++ [newQuestion reqQ.Name]) []
  { header :=
      { ID := dnsRequest.header.ID, QR := 1, OPCODE := dnsRequest.header.OPCODE,
        AA := 0, TC := 0, RD := dnsRequest.header.RD, RA := dnsRequest.header.RA,
        Z := 0, RCODE := responseRCODE,
        QDCOUNT := q.length % 65536, ANCOUNT := a.length % 65536,
        NSCOUNT := 0, ARCOUNT := 0 },
    Questions := q, Answer := a }

/-- Go `generateRequest`: single-question upstream sub-request. -/
def generateRequest (originalRequest : DNSMessage) (singleQuestion : Question) :
    DNSMessage :=
  let a : List RR := []
  let q : List Question := [singleQuestion]
  { header :=
      { ID := originalRequest.header.ID, QR := 0,
        OPCODE := originalRequest.header.OPCODE, AA := 0, TC := 0,
        RD := originalRequest.header.RD, RA := originalRequest.header.RA,
        Z := 0, RCODE := 0,
        QDCOUNT := q.length % 65536, ANCOUNT := a.length % 65536,
        NSCOUNT := 0, ARCOUNT := 0 },
    Questions := q, Answer := a }

/-- Result of the Go `parseName` loop: the accumulated `nameParts` and the
final reader position, a Go error, or fuel exhaustion (the Go code still
running after the given number of loop iterations / recursive calls). -/
inductive NameParts where
  | ok (parts : List (List Nat)) (pos : Nat)
  | err
  | fuelOut
  deriving Repr, DecidableEq

/-- The loop body of Go `parseName` (lines 273-305).  `pos` is the reader
position (the function has already been seeked to the offset), `parts` the
`nameParts` accumulator.  A length octet `≥ 192` is a compression pointer:
the second octet is read and the name at `(b & 0x3F) << 8 + b2` is parsed
recursively with the SAME shared reader, whose final position is returned.
A zero octet terminates the name.  Otherwise `b` bytes of label are read
via `bytes.Reader.Read`, which fails only when the reader is already at the
end of the buffer and otherwise silently returns the `min` of the requested
and remaining byte counts (the unfilled tail of the label stays zero). -/
def parseNameLoop : Nat → List Nat → Nat → List (List Nat) → NameParts
  | 0, _, _, _ => .fuelOut
  | fuel + 1, buf, pos, parts =>
    match buf[pos]? with
    | none => .err
    | some b =>
      if 192 ≤ b then
        match buf[pos + 1]? with
        | none => .err
        | some b2 =>
          match parseNameLoop fuel buf (((b &&& 63) <<< 8) + b2) [] with
          | .ok innerParts innerPos => .ok (parts ++ [joinDots innerParts]) innerPos
          | .err => .err
          | .fuelOut => .fuelOut
      else if b = 0 then .ok parts (pos + 1)
      else
        if buf.length ≤ pos + 1 then .err
        else
          let n := min b (buf.length - (pos + 1))
          parseNameLoop fuel buf (pos + 1 + n)
            (parts ++ [(buf.drop (pos + 1)).take n ++ List.replicate (b - n) 0])

/-- Result of Go `parseName` / `readName`: the decoded name (a Go string)
and the final reader position, an error, or fuel exhaustion. -/
inductive NameRes where
  | ok (name : List Nat) (pos : Nat)
  | err
  | fuelOut
  deriving Repr, DecidableEq

/-- Go `parseName(reader, offset)`: seek to `offset`, run the loop, join
the accumulated parts with dots. -/
def parseName (fuel : Nat) (buf : List Nat) (offset : Nat) : NameRes :=
  match parseNameLoop fuel buf offset [] with
  | .ok parts pos => .ok (joinDots parts) pos
  | .err => .err
  | .fuelOut => .fuelOut

/-- `binary.Read` of a big-endian `uint16` at `pos`: fails (EOF or
unexpected EOF via `io.ReadFull`) unless two bytes remain. -/
def readU16 (buf : List Nat) (pos : Nat) : Option (Nat × Nat) :=
  if pos + 2 ≤ buf.length then
    some (buf.getD pos 0 * 256 + buf.getD (pos + 1) 0, pos + 2)
  else none

/-- `binary.Read` of a big-endian `uint32` at `pos`. -/
def readU32 (buf : List Nat) (pos : Nat) : Option (Nat × Nat) :=
  if pos + 4 ≤ buf.length then
    some (buf.getD pos 0 * 16777216 + buf.getD (pos + 1) 0 * 65536 +
          buf.getD (pos + 2) 0 * 256 + buf.getD (pos + 3) 0, pos + 4)
  else none

/-- Go `parseHeader`: fails if fewer than 12 bytes, else unpacks the bit
fields of the 16-bit `flags` word exactly as the Go shifts and masks do. -/
def parseHeader (data : List Nat) : Option Header :=
  if data.length < 12 then none
  else
    let flags := data.getD 2 0 * 256 + data.getD 3 0
    some
      { ID := data.getD 0 0 * 256 + data.getD 1 0,
        QR := flags >>> 15 &&& 1,
        OPCODE := flags >>> 11 &&& 15,
        AA := flags >>> 10 &&& 1,
        TC := flags >>> 9 &&& 1,
        RD := flags >>> 8 &&& 1,
        RA := flags >>> 7 &&& 1,
        Z := flags >>> 4 &&& 7,
        RCODE := flags &&& 15,
        QDCOUNT := data.getD 4 0 * 256 + data.getD 5 0,
        ANCOUNT := data.getD 6 0 * 256 + data.getD 7 0,
        NSCOUNT := data.getD 8 0 * 256 + data.getD 9 0,
        ARCOUNT := data.getD 10 0 * 256 + data.getD 11 0 }

/-- Outcome of one of the two section loops of `parseDNSMessage`: finished
normally, returned an error (Go returns the partially built message), or a
name parse exceeded its fuel. -/
inductive LoopRes (α : Type) where
  | done (val : α)
  | failed (val : α)
  | hung
  deriving Repr, DecidableEq

/-- The question loop of Go `parseDNSMessage` (lines 193-208): `count`
iterations of name / type / class reads, accumulating questions.  On a Go
error the questions accumulated so far are kept (the partial message is
returned by `parseDNSMessage`). -/
def parseQuestions (fuel : Nat) (buf : List Nat) :
    Nat → Nat → List Question → LoopRes (List Question × Nat)
  | 0, pos, acc => .done (acc, pos)
  | count + 1, pos, acc =>
    match parseName fuel buf pos with
    | .fuelOut => .hung
    | .err => .failed (acc, pos)
    | .ok name pos1 =>
      match readU16 buf pos1 with
      | none => .failed (acc, pos1)
      | some (ty, pos2) =>
        match readU16 buf pos2 with
        | none => .failed (acc, pos2)
        | some (cl, pos3) =>
          parseQuestions fuel buf count pos3 (acc ++ [⟨name, ty, cl⟩])

/-- The answer loop of Go `parseDNSMessage` (lines 210-238).  The data
payload is read with `reader.Read(rr.Data)`, which fails only when the
reader is already at the end of the buffer; otherwise it reads
`min(Length, remaining)` bytes and leaves the rest of the freshly
allocated (zeroed) slice untouched. -/
def parseRRs (fuel : Nat) (buf : List Nat) :
    Nat → Nat → List RR → LoopRes (List RR × Nat)
  | 0, pos, acc => .done (acc, pos)
  | count + 1, pos, acc =>
    match parseName fuel buf pos with
    | .fuelOut => .hung
    | .err => .failed (acc, pos)
    | .ok name pos1 =>
      match readU16 buf pos1 with
      | none => .failed (acc, pos1)
      | some (ty, pos2) =>
        match readU16 buf pos2 with
        | none => .failed (acc, pos2)
        | some (cl, pos3) =>
          match readU32 buf pos3 with
          | none => .failed (acc, pos3)
          | some (ttl, pos4) =>
            match readU16 buf pos4 with
            | none => .failed (acc, pos4)
            | some (len, pos5) =>
              if buf.length ≤ pos5 then .failed (acc, pos5)
              else
                let n := min len (buf.length - pos5)
                parseRRs fuel buf count (pos5 + n)
                  (acc ++ [⟨name, ty, cl, ttl, len,
                            (buf.drop pos5).take n ++ List.replicate (len - n) 0⟩])

/-- Result of Go `parseDNSMessage`: the returned message together with
whether the returned error was non-nil (Go returns the partially built
message alongside the error), or `hung` when a name parse never
terminates. -/
inductive MsgRes where
  | res (msg : DNSMessage) (failed : Bool)
  | hung
  deriving Repr, DecidableEq

/-- The all-zero `DNSMessage` zero value returned by Go on a header
error. -/
def DNSMessage.zero : DNSMessage :=
  { header := ⟨0, 0, 0, 0, 0, 0, 0, 0, 0, 0, 0, 0, 0⟩, Questions := [], Answer := [] }

/-- Go `parseDNSMessage`: header, then `QDCOUNT` questions from offset 12,
then `ANCOUNT` answer records.  Each `readName` call is given fuel
`data.length + 1`, which covers every terminating execution of the Go
recursion (each loop iteration of `parseName` reads a length octet at a
fresh position; a terminating run never revisits one). -/
def parseDNSMessage (data : List Nat) : MsgRes :=
  match parseHeader data with
  | none => .res DNSMessage.zero true
  | some hdr =>
    match parseQuestions (data.length + 1) data hdr.QDCOUNT 12 [] with
    | .hung => .hung
    | .failed (qs, _) => .res ⟨hdr, qs, []⟩ true
    | .done (qs, pos) =>
      match parseRRs (data.length + 1) data hdr.ANCOUNT pos [] with
      | .hung => .hung
      | .failed (as, _) => .res ⟨hdr, qs, as⟩ true
      | .done (as, _) => .res ⟨hdr, qs, as⟩ false

/-- The answer-collection loop of forward mode (main.go lines 353-364),
with the network abstracted: `upstream q` is the decoded reply obtained for
the sub-request generated from question `q`.  A reply with at least one
answer contributes exactly its first answer record. -/
def forwardAnswersLoop (upstream : Question → DNSMessage) :
    List Question → List RR → List RR
  | [], acc => acc
  | reqQ :: rest, acc =>
    match (upstream reqQ).Answer with
    | [] => forwardAnswersLoop upstream rest acc
    | a :: _ => forwardAnswersLoop upstream rest (acc ++ [a])

/-- Forward mode (main.go lines 346-366): start from `generateResponse`,
overwrite the answers with the collected upstream first-answers, and set
`ANCOUNT` to `uint16(len(response.Answer))`. -/
def forwardResponse (dnsRequest : DNSMessage) (upstream : Question → DNSMessage) :
    DNSMessage :=
  let base := generateResponse dnsRequest
  let ans := forwardAnswersLoop upstream dnsRequest.Questions []
  { base with Answer := ans,
              header := { base.header with ANCOUNT := ans.length % 65536 } }

/-- One iteration of the local-mode receive loop (main.go lines 335-367)
for a single datagram: the decode error is discarded (`dnsRequest, _ :=`)
and a response generated from whatever message came back is always sent.
`none` models the server hanging inside a name parse. -/
def serverStep (datagram : List Nat) : Option (List Nat) :=
  match parseDNSMessage datagram with
  | .hung => none
  | .res msg _ => some (generateResponse msg).serialize

/-! ### Well-formedness (the claim\'s notion of a well-formed message, read
off the spec data model: counts match list lengths, fields fit their
declared bit widths, names are dot-joined labels of 1-63 bytes, and each
record\'s `Length` equals `len(Data)`). -/

/-- The label bytes of `serializeDomain` before the terminating zero. -/
def encLabels (labels : List (List Nat)) : List Nat :=
  (labels.map (fun l => (l.length % 256) :: l)).flatten

/-- A name made of dot-joined labels of 1 to 63 bytes each. -/
def wfName (s : List Nat) : Prop :=
  ∀ l ∈ splitOnDot s, 1 ≤ l.length ∧ l.length ≤ 63

instance (s : List Nat) : Decidable (wfName s) := by
  unfold wfName; infer_instance

/-- Header fields within their declared bit widths. -/
def wfHeader (h : Header) : Prop :=
  h.ID < 65536 ∧ h.QR < 2 ∧ h.OPCODE < 16 ∧ h.AA < 2 ∧ h.TC < 2 ∧
  h.RD < 2 ∧ h.RA < 2 ∧ h.Z < 8 ∧ h.RCODE < 16 ∧ h.QDCOUNT < 65536 ∧
  h.ANCOUNT < 65536 ∧ h.NSCOUNT < 65536 ∧ h.ARCOUNT < 65536

instance (h : Header) : Decidable (wfHeader h) := by
  unfold wfHeader; infer_instance

/-- A question with a well-formed name and 16-bit type and class. -/
def wfQuestion (q : Question) : Prop :=
  wfName q.Name ∧ q.Typ < 65536 ∧ q.Class < 65536

instance (q : Question) : Decidable (wfQuestion q) := by
  unfold wfQuestion; infer_instance

/-- A record with a well-formed name, 16-bit type/class, 32-bit TTL, and
`Length` equal to the actual data length (which fits 16 bits). -/
def wfRR (r : RR) : Prop :=
  wfName r.Name ∧ r.Typ < 65536 ∧ r.Class < 65536 ∧ r.TTL < 4294967296 ∧
  r.Length = r.Data.length ∧ r.Data.length < 65536

instance (r : RR) : Decidable (wfRR r) := by
  unfold wfRR; infer_instance

/-- Claim C2\'s well-formed message: a well-formed header whose counts
equal the list lengths, and well-formed questions and records. -/
def wfMessage (m : DNSMessage) : Prop :=
  wfHeader m.header ∧ m.header.QDCOUNT = m.Questions.length ∧
  m.header.ANCOUNT = m.Answer.length ∧
  (∀ q ∈ m.Questions, wfQuestion q) ∧ (∀ r ∈ m.Answer, wfRR r)

instance (m : DNSMessage) : Decidable (wfMessage m) := by
  unfold wfMessage; infer_instance

/-- The final answer record, if any, has nonempty data (the extra
hypothesis the round-trip counterexample forces). -/
def lastDataNonempty : List RR → Prop
  | [] => True
  | [r] => r.Data ≠ []
  | _ :: r2 :: rs => lastDataNonempty (r2 :: rs)

instance : ∀ rs : List RR, Decidable (lastDataNonempty rs)
  | [] => by unfold lastDataNonempty; infer_instance
  | [r] => by unfold lastDataNonempty; infer_instance
  | _ :: r2 :: rs => by
    unfold lastDataNonempty
    exact instDecidableLastDataNonempty (r2 :: rs)

/-! ### Helper lemmas -/

theorem foldl_append_map {α β : Type} (f : α → β) :
    ∀ (l : List α) (acc : List β),
      l.foldl (fun acc x => acc ++ [f x]) acc = acc ++ l.map f := by
  intro l
  induction l with
  | nil => intro acc; simp
  | cons x xs ih => intro acc; simp [ih]

theorem generateResponse_Questions (m : DNSMessage) :
    (generateResponse m).Questions = m.Questions.map (fun q => newQuestion q.Name) := by
  simp [generateResponse, foldl_append_map]

theorem generateResponse_Answer (m : DNSMessage) :
    (generateResponse m).Answer = m.Questions.map (fun q => newRR q.Name) := by
  simp [generateResponse, foldl_append_map]

theorem forwardAnswersLoop_eq (upstream : Question → DNSMessage) :
    ∀ (l : List Question) (acc : List RR),
      forwardAnswersLoop upstream l acc =
        acc ++ (l.map upstream).filterMap (fun r => r.Answer.head?) := by
  intro l
  induction l with
  | nil => intro acc; simp [forwardAnswersLoop]
  | cons x xs ih =>
    intro acc
    rw [forwardAnswersLoop]
    cases h : (upstream x).Answer with
    | nil => simp [h, ih]
    | cons a as => simp [h, ih]

theorem parseNameLoop_selfPointer :
    ∀ fuel : Nat, parseNameLoop fuel [192, 0] 0 [] = .fuelOut := by
  intro fuel
  induction fuel with
  | zero => rfl
  | succ f ih =>
    have h0 : ((192 : Nat) &&& 63) <<< 8 + 0 = 0 := by decide
    simp [parseNameLoop, h0, ih]

/-! ### Claims -/

/-- Claim C1: the spec demands that `parseName` terminate on every buffer
and fail with `MalformedName` on pointer cycles.  The code has no visited
set and no depth cap: on the buffer `[0xC0, 0x00]`, whose pointer at
offset 0 points to offset 0, the Go recursion never returns — for every
fuel bound the model is still running (`fuelOut`), so in particular it
never produces the error the spec requires.  This is the code bug the
claim (correctly) rules out. -/
theorem claim_C1 (fuel : Nat) : parseName fuel [192, 0] 0 = .fuelOut := by
  unfold parseName
  rw [parseNameLoop_selfPointer fuel]

/-- Claim C3: in local-synthesis mode the response carries one answer per
request question with the same name, type 1, class 1, TTL 60 and payload
`08 08 08 08`; the header has QR=1, OPCODE copied, AA=0, TC=0, RD/RA
copied, Z=0, RCODE=0 for opcode 0, and QDCOUNT = ANCOUNT = the number of
request questions. -/
theorem claim_C3 (m : DNSMessage) (h : m.Questions.length < 65536) :
    (generateResponse m).Answer =
      m.Questions.map (fun q => ⟨q.Name, 1, 1, 60, 4, [8, 8, 8, 8]⟩) ∧
    (generateResponse m).header.QR = 1 ∧
    (generateResponse m).header.OPCODE = m.header.OPCODE ∧
    (generateResponse m).header.AA = 0 ∧
    (generateResponse m).header.TC = 0 ∧
    (generateResponse m).header.RD = m.header.RD ∧
    (generateResponse m).header.RA = m.header.RA ∧
    (generateResponse m).header.Z = 0 ∧
    (m.header.OPCODE = 0 → (generateResponse m).header.RCODE = 0) ∧
    (generateResponse m).header.QDCOUNT = m.Questions.length ∧
    (generateResponse m).header.ANCOUNT = m.Questions.length := by
  refine ⟨?_, rfl, rfl, rfl, rfl, rfl, rfl, rfl, ?_, ?_, ?_⟩
  · rw [generateResponse_Answer]; rfl
  · intro h0
    simp [generateResponse, h0]
  · show (m.Questions.foldl (fun acc reqQ => acc ++ [newQuestion reqQ.Name]) []).length
        % 65536 = m.Questions.length
    rw [foldl_append_map]
    simp only [List.nil_append, List.length_map]
    exact Nat.mod_eq_of_lt h
  · show (m.Questions.foldl (fun acc reqQ => acc ++ [newRR reqQ.Name]) []).length
        % 65536 = m.Questions.length
    rw [foldl_append_map]
    simp only [List.nil_append, List.length_map]
    exact Nat.mod_eq_of_lt h

/-- Concrete instantiation of `claim_C3`. -/
theorem claim_C3_witness :
    (DNSMessage.mk ⟨0x1234, 0, 0, 0, 0, 1, 0, 0, 0, 1, 0, 0, 0⟩
        [⟨[97, 98], 1, 1⟩] []).Questions.length < 65536 ∧
    ((generateResponse (DNSMessage.mk ⟨0x1234, 0, 0, 0, 0, 1, 0, 0, 0, 1, 0, 0, 0⟩
        [⟨[97, 98], 1, 1⟩] [])).Answer =
      [⟨[97, 98], 1, 1, 60, 4, [8, 8, 8, 8]⟩] ∧
     (generateResponse (DNSMessage.mk ⟨0x1234, 0, 0, 0, 0, 1, 0, 0, 0, 1, 0, 0, 0⟩
        [⟨[97, 98], 1, 1⟩] [])).header.QDCOUNT = 1) := by
  have h := claim_C3 (DNSMessage.mk ⟨0x1234, 0, 0, 0, 0, 1, 0, 0, 0, 1, 0, 0, 0⟩
    [⟨[97, 98], 1, 1⟩] []) (by decide)
  exact ⟨by decide, h.1, h.2.2.2.2.2.2.2.2.2.1⟩

/-- Claim C5: in forward mode each question independently yields a
single-question sub-request reusing ID/OPCODE/RD/RA with QR=0 and RCODE=0;
only the first answer of an upstream reply that has at least one answer is
appended; and the final ANCOUNT equals the number of answers actually
collected (possibly fewer than QDCOUNT).  The UDP transport is abstracted:
`upstream q` is the decoded reply the server obtains for question `q`. -/
theorem claim_C5 (request : DNSMessage) (upstream : Question → DNSMessage)
    (q : Question) (hq : request.Questions.length < 65536) :
    (generateRequest request q).Questions = [q] ∧
    (generateRequest request q).header.ID = request.header.ID ∧
    (generateRequest request q).header.OPCODE = request.header.OPCODE ∧
    (generateRequest request q).header.RD = request.header.RD ∧
    (generateRequest request q).header.RA = request.header.RA ∧
    (generateRequest request q).header.QR = 0 ∧
    (generateRequest request q).header.RCODE = 0 ∧
    (generateRequest request q).header.QDCOUNT = 1 ∧
    (generateRequest request q).header.ANCOUNT = 0 ∧
    (forwardResponse request upstream).Answer =
      (request.Questions.map upstream).filterMap (fun r => r.Answer.head?) ∧
    (forwardResponse request upstream).header.ANCOUNT =
      ((request.Questions.map upstream).filterMap (fun r => r.Answer.head?)).length := by
  refine ⟨rfl, rfl, rfl, rfl, rfl, rfl, rfl, rfl, rfl, ?_, ?_⟩
  · show forwardAnswersLoop upstream request.Questions [] = _
    rw [forwardAnswersLoop_eq]
    simp
  · show (forwardAnswersLoop upstream request.Questions []).length % 65536 = _
    rw [forwardAnswersLoop_eq]
    simp only [List.nil_append]
    exact Nat.mod_eq_of_lt
      (lt_of_le_of_lt (le_trans (List.length_filterMap_le _ _)
        (by simp)) hq)

/-- Concrete instantiation of `claim_C5`: two questions, the upstream
only answers the first, so ANCOUNT = 1 < QDCOUNT = 2. -/
theorem claim_C5_witness :
    (DNSMessage.mk ⟨9, 0, 0, 0, 0, 1, 0, 0, 0, 2, 0, 0, 0⟩
        [⟨[97], 1, 1⟩, ⟨[98], 1, 1⟩] []).Questions.length < 65536 ∧
    (forwardResponse
        (DNSMessage.mk ⟨9, 0, 0, 0, 0, 1, 0, 0, 0, 2, 0, 0, 0⟩
          [⟨[97], 1, 1⟩, ⟨[98], 1, 1⟩] [])
        (fun q => if q.Name = [97] then
            ⟨⟨9, 1, 0, 0, 0, 1, 0, 0, 0, 1, 1, 0, 0⟩, [q],
              [⟨[97], 1, 1, 60, 4, [1, 2, 3, 4]⟩, ⟨[97], 1, 1, 60, 4, [5, 6, 7, 8]⟩]⟩
          else ⟨⟨9, 1, 0, 0, 0, 1, 0, 0, 0, 1, 0, 0, 0⟩, [q], []⟩)).header.ANCOUNT
      = 1 := by
  have h := claim_C5
    (DNSMessage.mk ⟨9, 0, 0, 0, 0, 1, 0, 0, 0, 2, 0, 0, 0⟩
      [⟨[97], 1, 1⟩, ⟨[98], 1, 1⟩] [])
    (fun q => if q.Name = [97] then
        ⟨⟨9, 1, 0, 0, 0, 1, 0, 0, 0, 1, 1, 0, 0⟩, [q],
          [⟨[97], 1, 1, 60, 4, [1, 2, 3, 4]⟩, ⟨[97], 1, 1, 60, 4, [5, 6, 7, 8]⟩]⟩
      else ⟨⟨9, 1, 0, 0, 0, 1, 0, 0, 0, 1, 0, 0, 0⟩, [q], []⟩)
    ⟨[97], 1, 1⟩ (by decide)
  refine ⟨by decide, ?_⟩
  rw [h.2.2.2.2.2.2.2.2.2.2]
  decide

/-- Claim C6 as stated is false: `generateResponse` rebuilds every
response question via `newQuestion`, forcing type 1 and class 1, so a
request question with type 2 / class 3 is NOT echoed unchanged even though
RCODE is 4 as claimed. -/
theorem claim_C6_counterexample :
    (generateResponse
        (DNSMessage.mk ⟨1, 0, 1, 0, 0, 1, 0, 0, 0, 1, 0, 0, 0⟩
          [⟨[97], 2, 3⟩] [])).header.RCODE = 4 ∧
    ¬ (generateResponse
        (DNSMessage.mk ⟨1, 0, 1, 0, 0, 1, 0, 0, 0, 1, 0, 0, 0⟩
          [⟨[97], 2, 3⟩] [])).Questions
      = [⟨[97], 2, 3⟩] := by
  constructor
  · rfl
  · intro hcontra
    have : (⟨[97], 1, 1⟩ : Question) = ⟨[97], 2, 3⟩ := by
      have h1 := generateResponse_Questions
        (DNSMessage.mk ⟨1, 0, 1, 0, 0, 1, 0, 0, 0, 1, 0, 0, 0⟩ [⟨[97], 2, 3⟩] [])
      rw [h1] at hcontra
      simp [newQuestion] at hcontra
    simp at this

/-- Claim C6, amended: for a request with OPCODE ≠ 0 the response has
RCODE = 4 and copies ID/OPCODE/RD/RA with QR=1, AA=TC=Z=0 and
QDCOUNT = ANCOUNT = the question count; the question NAMES are echoed but
each response question's type and class are set to 1 regardless of the
originals. -/
theorem claim_C6 (m : DNSMessage) (h : m.header.OPCODE ≠ 0)
    (hl : m.Questions.length < 65536) :
    (generateResponse m).header.RCODE = 4 ∧
    (generateResponse m).Questions =
      m.Questions.map (fun q => ⟨q.Name, 1, 1⟩) ∧
    (generateResponse m).header.ID = m.header.ID ∧
    (generateResponse m).header.OPCODE = m.header.OPCODE ∧
    (generateResponse m).header.RD = m.header.RD ∧
    (generateResponse m).header.RA = m.header.RA ∧
    (generateResponse m).header.QR = 1 ∧
    (generateResponse m).header.AA = 0 ∧
    (generateResponse m).header.TC = 0 ∧
    (generateResponse m).header.Z = 0 ∧
    (generateResponse m).header.QDCOUNT = m.Questions.length ∧
    (generateResponse m).header.ANCOUNT = m.Questions.length := by
  refine ⟨?_, ?_, rfl, rfl, rfl, rfl, rfl, rfl, rfl, rfl, ?_, ?_⟩
  · show (match m.header.OPCODE with | 0 => 0 | _ => 4) = 4
    cases hop : m.header.OPCODE with
    | zero => exact absurd hop h
    | succ n => rfl
  · rw [generateResponse_Questions]; rfl
  · show (m.Questions.foldl (fun acc reqQ => acc ++ [newQuestion reqQ.Name]) []).length
        % 65536 = m.Questions.length
    rw [foldl_append_map]
    simp only [List.nil_append, List.length_map]
    exact Nat.mod_eq_of_lt hl
  · show (m.Questions.foldl (fun acc reqQ => acc ++ [newRR reqQ.Name]) []).length
        % 65536 = m.Questions.length
    rw [foldl_append_map]
    simp only [List.nil_append, List.length_map]
    exact Nat.mod_eq_of_lt hl

/-- Concrete instantiation of `claim_C6`. -/
theorem claim_C6_witness :
    ((DNSMessage.mk ⟨1, 0, 1, 0, 0, 1, 0, 0, 0, 1, 0, 0, 0⟩
        [⟨[97], 2, 3⟩] []).header.OPCODE ≠ 0 ∧
     (DNSMessage.mk ⟨1, 0, 1, 0, 0, 1, 0, 0, 0, 1, 0, 0, 0⟩
        [⟨[97], 2, 3⟩] []).Questions.length < 65536) ∧
    ((generateResponse (DNSMessage.mk ⟨1, 0, 1, 0, 0, 1, 0, 0, 0, 1, 0, 0, 0⟩
        [⟨[97], 2, 3⟩] [])).header.RCODE = 4 ∧
     (generateResponse (DNSMessage.mk ⟨1, 0, 1, 0, 0, 1, 0, 0, 0, 1, 0, 0, 0⟩
        [⟨[97], 2, 3⟩] [])).Questions = [⟨[97], 1, 1⟩]) := by
  have h := claim_C6 (DNSMessage.mk ⟨1, 0, 1, 0, 0, 1, 0, 0, 0, 1, 0, 0, 0⟩
    [⟨[97], 2, 3⟩] []) (by decide) (by decide)
  exact ⟨⟨by decide, by decide⟩, h.1, h.2.1⟩

/-- Claim C7 is false of the code: after following a compression pointer
the shared reader is left at the END of the pointed-to name, not 2 bytes
past the pointer.  In `[1, 'a', 0, 0xC0, 0x00]` the pointer starts at
offset 3, so the spec requires `nextOffset = 5`; the code resumes at
offset 3 (the end of the name stored at offset 0). -/
theorem claim_C7 :
    parseName 6 [1, 97, 0, 192, 0] 3 = .ok [97] 3 ∧ (3 : Nat) ≠ 3 + 2 := by
  constructor
  · decide
  · decide

/-- Claim C9 is false of the code: for the 12-byte datagram whose header
announces QDCOUNT = 1 but which contains no question bytes, decoding
returns a non-nil error, yet `main` discards the error and still sends a
response synthesized from the partially populated message (here the
concrete 12 response bytes with QR=1). -/
theorem claim_C9 :
    parseDNSMessage [0, 0, 0, 0, 0, 1, 0, 0, 0, 0, 0, 0] =
      .res ⟨⟨0, 0, 0, 0, 0, 0, 0, 0, 0, 1, 0, 0, 0⟩, [], []⟩ true ∧
    serverStep [0, 0, 0, 0, 0, 1, 0, 0, 0, 0, 0, 0] =
      some [0, 0, 128, 0, 0, 0, 0, 0, 0, 0, 0, 0] := by
  constructor
  · decide
  · decide

/-! ### Header round trip (C8) -/

theorem byte2_arith :
    ∀ qr < 2, ∀ op < 16, ∀ aa < 2, ∀ tc < 2, ∀ rd < 2,
      ((qr <<< 7) % 256) ||| ((op <<< 3) % 256) ||| ((aa <<< 2) % 256)
          ||| ((tc <<< 1) % 256) ||| (rd % 256) =
        qr * 128 + op * 8 + aa * 4 + tc * 2 + rd := by
  decide

theorem byte3_arith :
    ∀ ra < 2, ∀ z < 8, ∀ rc < 16,
      ((ra <<< 7) % 256) ||| ((z <<< 4) % 256) ||| (rc % 256) =
        ra * 128 + z * 16 + rc := by
  decide

theorem parseHeader_serialize_append (h : Header) (rest : List Nat)
    (hID : h.ID < 65536) (hQR : h.QR < 2) (hOP : h.OPCODE < 16)
    (hAA : h.AA < 2) (hTC : h.TC < 2) (hRD : h.RD < 2) (hRA : h.RA < 2)
    (hZ : h.Z < 8) (hRC : h.RCODE < 16) (hQD : h.QDCOUNT < 65536)
    (hAN : h.ANCOUNT < 65536) (hNS : h.NSCOUNT < 65536)
    (hAR : h.ARCOUNT < 65536) :
    parseHeader (h.serialize ++ rest) = some h := by
  obtain ⟨i, qr, op, aa, tc, rd, ra, z, rc, qd, an, ns, ar⟩ := h
  simp only at hID hQR hOP hAA hTC hRD hRA hZ hRC hQD hAN hNS hAR
  have hb2 := byte2_arith qr hQR op hOP aa hAA tc hTC rd hRD
  have hb3 := byte3_arith ra hRA z hZ rc hRC
  simp only [Header.serialize, parseHeader, List.cons_append, List.nil_append,
    List.length_cons, List.getD_cons_zero, List.getD_cons_succ]
  rw [hb2, hb3]
  rw [if_neg (by omega)]
  have hsr : ∀ v k : Nat, v >>> k = v / 2 ^ k := fun v k => Nat.shiftRight_eq_div_pow v k
  have hm1 : ∀ v : Nat, v &&& 1 = v % 2 := fun v => Nat.and_one_is_mod v
  have hm7 : ∀ v : Nat, v &&& 7 = v % 8 := fun v => Nat.and_pow_two_sub_one_eq_mod v 3
  have hm15 : ∀ v : Nat, v &&& 15 = v % 16 := fun v => Nat.and_pow_two_sub_one_eq_mod v 4
  simp only [Option.some.injEq, Header.mk.injEq, hsr, hm1, hm7, hm15]
  refine ⟨by omega, ?_, ?_, ?_, ?_, ?_, ?_, ?_, ?_, by omega, by omega, by omega, by omega⟩
  all_goals omega

/-- Claim C8: `Header.serialize` and `parseHeader` are exact inverses:
for any header whose fields are within their declared bit widths,
decoding the 12 encoded bytes reproduces every field bit-for-bit,
including an arbitrary 3-bit Z value (not forced to zero on encode). -/
theorem claim_C8 (h : Header)
    (hID : h.ID < 65536) (hQR : h.QR < 2) (hOP : h.OPCODE < 16)
    (hAA : h.AA < 2) (hTC : h.TC < 2) (hRD : h.RD < 2) (hRA : h.RA < 2)
    (hZ : h.Z < 8) (hRC : h.RCODE < 16) (hQD : h.QDCOUNT < 65536)
    (hAN : h.ANCOUNT < 65536) (hNS : h.NSCOUNT < 65536)
    (hAR : h.ARCOUNT < 65536) :
    parseHeader h.serialize = some h := by
  have := parseHeader_serialize_append h [] hID hQR hOP hAA hTC hRD hRA hZ
    hRC hQD hAN hNS hAR
  simpa using this

/-- Concrete instantiation of `claim_C8`, with a nonzero reserved field
Z = 5 that round-trips untouched. -/
theorem claim_C8_witness :
    ((Header.mk 513 1 9 1 0 1 1 5 12 3 7 515 65535).Z < 8 ∧
     (Header.mk 513 1 9 1 0 1 1 5 12 3 7 515 65535).ID < 65536) ∧
    parseHeader (Header.serialize (Header.mk 513 1 9 1 0 1 1 5 12 3 7 515 65535)) =
      some (Header.mk 513 1 9 1 0 1 1 5 12 3 7 515 65535) := by
  refine ⟨⟨by decide, by decide⟩, ?_⟩
  exact claim_C8 (Header.mk 513 1 9 1 0 1 1 5 12 3 7 515 65535)
    (by decide) (by decide) (by decide) (by decide) (by decide) (by decide)
    (by decide) (by decide) (by decide) (by decide) (by decide) (by decide)
    (by decide)

/-! ### List access helpers -/

theorem getElem?_append_add (pre t : List Nat) (i : Nat) :
    (pre ++ t)[pre.length + i]? = t[i]? := by
  induction pre with
  | nil => simp
  | cons a p ih =>
    have harith : p.length + 1 + i = (p.length + i) + 1 := by omega
    simp only [List.cons_append, List.length_cons, harith, List.getElem?_cons_succ]
    exact ih

theorem getElem?_append_len (pre t : List Nat) (x : Nat) :
    (pre ++ x :: t)[pre.length]? = some x := by
  have := getElem?_append_add pre (x :: t) 0
  simpa using this

theorem getD_append_add (pre t : List Nat) (i d : Nat) :
    (pre ++ t).getD (pre.length + i) d = t.getD i d := by
  simp [List.getD_eq_getElem?_getD, getElem?_append_add]

theorem drop_append_len (pre t : List Nat) :
    (pre ++ t).drop pre.length = t := by
  simp

theorem take_append_len (pre t : List Nat) :
    (pre ++ t).take pre.length = pre := by
  simp

/-! ### splitOnDot / joinDots -/

theorem splitOnDot_ne_nil (s : List Nat) : splitOnDot s ≠ [] := by
  cases s with
  | nil => simp [splitOnDot]
  | cons c rest =>
    by_cases hc : c = 46
    · simp [splitOnDot, hc]
    · simp only [splitOnDot, if_neg hc]
      cases h : splitOnDot rest with
      | nil => simp
      | cons p ps => simp

theorem joinDots_splitOnDot (s : List Nat) : joinDots (splitOnDot s) = s := by
  induction s with
  | nil => rfl
  | cons c rest ih =>
    by_cases hc : c = 46
    · subst hc
      simp only [splitOnDot, if_pos rfl]
      cases h : splitOnDot rest with
      | nil => exact absurd h (splitOnDot_ne_nil rest)
      | cons p ps =>
        show joinDots ([] :: p :: ps) = 46 :: rest
        rw [joinDots]
        rw [h] at ih
        simpa using ih
    · simp only [splitOnDot, if_neg hc]
      cases h : splitOnDot rest with
      | nil => exact absurd h (splitOnDot_ne_nil rest)
      | cons p ps =>
        rw [h] at ih
        cases ps with
        | nil =>
          show joinDots [c :: p] = c :: rest
          rw [joinDots] at ih ⊢
          simp [ih]
        | cons p2 ps2 =>
          show joinDots ((c :: p) :: p2 :: ps2) = c :: rest
          rw [joinDots] at ih ⊢
          simpa using ih

theorem serializeDomain_eq (d : List Nat) :
    serializeDomain d = encLabels (splitOnDot d) ++ [0] := rfl

theorem length_le_encLabels (labels : List (List Nat)) :
    labels.length ≤ (encLabels labels).length := by
  induction labels with
  | nil => simp [encLabels]
  | cons l ls ih =>
    simp only [encLabels, List.map_cons, List.flatten_cons, List.length_append,
      List.length_cons] at *
    omega

/-! ### Parsing a serialized (pointer-free) name -/

theorem parseNameLoop_serialized :
    ∀ (labels : List (List Nat)) (fuel : Nat) (pre rest : List Nat)
      (parts : List (List Nat)),
      (∀ l ∈ labels, 1 ≤ l.length ∧ l.length ≤ 63) →
      labels.length < fuel →
      parseNameLoop fuel (pre ++ encLabels labels ++ 0 :: rest) pre.length parts =
        .ok (parts ++ labels) (pre.length + (encLabels labels).length + 1) := by
  intro labels
  induction labels with
  | nil =>
    intro fuel pre rest parts _ hfuel
    cases fuel with
    | zero => omega
    | succ f =>
      have hb2 : pre ++ encLabels [] ++ 0 :: rest = pre ++ 0 :: rest := by
        simp [encLabels]
      rw [parseNameLoop, hb2, getElem?_append_len]
      dsimp only
      rw [if_neg (by omega), if_pos rfl]
      simp [encLabels]
  | cons l ls ih =>
    intro fuel pre rest parts hwf hfuel
    cases fuel with
    | zero => omega
    | succ f =>
      obtain ⟨hl1, hl63⟩ := hwf l (by simp)
      have hmod : l.length % 256 = l.length := Nat.mod_eq_of_lt (by omega)
      have hbuf : pre ++ encLabels (l :: ls) ++ 0 :: rest =
          pre ++ l.length :: (l ++ (encLabels ls ++ 0 :: rest)) := by
        simp only [encLabels, List.map_cons, List.flatten_cons, hmod,
          List.cons_append, List.append_assoc]
      rw [parseNameLoop, hbuf, getElem?_append_len]
      dsimp only
      rw [if_neg (by omega), if_neg (by omega)]
      have hlen : (pre ++ l.length :: (l ++ (encLabels ls ++ 0 :: rest))).length =
          pre.length + 1 + l.length + (encLabels ls).length + 1 + rest.length := by
        simp; omega
      rw [if_neg (by rw [hlen]; omega)]
      have hdrop : (pre ++ l.length :: (l ++ (encLabels ls ++ 0 :: rest))).drop
          (pre.length + 1) = l ++ (encLabels ls ++ 0 :: rest) := by
        have : pre ++ l.length :: (l ++ (encLabels ls ++ 0 :: rest)) =
            (pre ++ [l.length]) ++ (l ++ (encLabels ls ++ 0 :: rest)) := by simp
        rw [this]
        have hl' : (pre ++ [l.length]).length = pre.length + 1 := by simp
        rw [← hl', drop_append_len]
      have hmin : min l.length
          ((pre ++ l.length :: (l ++ (encLabels ls ++ 0 :: rest))).length -
            (pre.length + 1)) = l.length := by
        rw [hlen]; omega
      simp only [hmin, hdrop]
      have htake : (l ++ (encLabels ls ++ 0 :: rest)).take l.length = l :=
        take_append_len l (encLabels ls ++ 0 :: rest)
      rw [htake, Nat.sub_self, List.replicate_zero, List.append_nil]
      have hre : pre ++ l.length :: (l ++ (encLabels ls ++ 0 :: rest)) =
          (pre ++ l.length :: l) ++ encLabels ls ++ 0 :: rest := by
        simp
      have hpos : pre.length + 1 + l.length = (pre ++ l.length :: l).length := by
        simp; omega
      rw [hre, hpos, ih f (pre ++ l.length :: l) rest (parts ++ [l])
        (fun x hx => hwf x (by simp [hx]))
        (by simp only [List.length_cons] at hfuel; omega)]
      congr 1
      · simp
      · simp only [encLabels, List.map_cons, List.flatten_cons, List.length_append,
          List.length_cons, hmod]
        omega

theorem parseName_serializeDomain (name : List Nat) (fuel : Nat)
    (pre rest : List Nat) (hwf : wfName name)
    (hfuel : (splitOnDot name).length < fuel) :
    parseName fuel (pre ++ serializeDomain name ++ rest) pre.length =
      .ok name (pre.length + (serializeDomain name).length) := by
  have hb : pre ++ serializeDomain name ++ rest =
      pre ++ encLabels (splitOnDot name) ++ 0 :: rest := by
    rw [serializeDomain_eq]; simp
  have hsd : (serializeDomain name).length =
      (encLabels (splitOnDot name)).length + 1 := by
    rw [serializeDomain_eq]; simp
  unfold parseName
  rw [hb, parseNameLoop_serialized (splitOnDot name) fuel pre rest [] hwf hfuel]
  dsimp only
  rw [List.nil_append, joinDots_splitOnDot, hsd, ← Nat.add_assoc]

/-! ### Reading fixed-width fields of serialized messages -/

theorem readU16_append (pre rest : List Nat) (v : Nat) (hv : v < 65536) :
    readU16 (pre ++ u16be v ++ rest) pre.length = some (v, pre.length + 2) := by
  have hassoc : pre ++ u16be v ++ rest = pre ++ (u16be v ++ rest) := by simp
  have hdiv : v >>> 8 = v / 256 := by
    rw [Nat.shiftRight_eq_div_pow]
  have h0 : (pre ++ (u16be v ++ rest)).getD pre.length 0 = v >>> 8 % 256 := by
    have := getD_append_add pre (u16be v ++ rest) 0 0
    simpa [u16be] using this
  have h1 : (pre ++ (u16be v ++ rest)).getD (pre.length + 1) 0 = v % 256 := by
    have := getD_append_add pre (u16be v ++ rest) 1 0
    simpa [u16be] using this
  unfold readU16
  rw [hassoc, if_pos (by simp [u16be]), h0, h1]
  have hval : v >>> 8 % 256 * 256 + v % 256 = v := by rw [hdiv]; omega
  rw [hval]

theorem readU32_append (pre rest : List Nat) (v : Nat) (hv : v < 4294967296) :
    readU32 (pre ++ u32be v ++ rest) pre.length = some (v, pre.length + 4) := by
  have hassoc : pre ++ u32be v ++ rest = pre ++ (u32be v ++ rest) := by simp
  have hd24 : v >>> 24 = v / 16777216 := by
    rw [Nat.shiftRight_eq_div_pow]
  have hd16 : v >>> 16 = v / 65536 := by
    rw [Nat.shiftRight_eq_div_pow]
  have hd8 : v >>> 8 = v / 256 := by
    rw [Nat.shiftRight_eq_div_pow]
  have h0 : (pre ++ (u32be v ++ rest)).getD pre.length 0 = v >>> 24 % 256 := by
    have := getD_append_add pre (u32be v ++ rest) 0 0
    simpa [u32be] using this
  have h1 : (pre ++ (u32be v ++ rest)).getD (pre.length + 1) 0 = v >>> 16 % 256 := by
    have := getD_append_add pre (u32be v ++ rest) 1 0
    simpa [u32be] using this
  have h2 : (pre ++ (u32be v ++ rest)).getD (pre.length + 2) 0 = v >>> 8 % 256 := by
    have := getD_append_add pre (u32be v ++ rest) 2 0
    simpa [u32be] using this
  have h3 : (pre ++ (u32be v ++ rest)).getD (pre.length + 3) 0 = v % 256 := by
    have := getD_append_add pre (u32be v ++ rest) 3 0
    simpa [u32be] using this
  unfold readU32
  rw [hassoc, if_pos (by simp [u32be]), h0, h1, h2, h3]
  have hval : v >>> 24 % 256 * 16777216 + v >>> 16 % 256 * 65536 +
      v >>> 8 % 256 * 256 + v % 256 = v := by
    rw [hd24, hd16, hd8]; omega
  rw [hval]

/-! ### The question section of a serialized message -/

theorem parseQuestions_serialized :
    ∀ (qs : List Question) (fuel : Nat) (pre rest : List Nat) (acc : List Question),
      (∀ q ∈ qs, wfQuestion q) →
      (∀ q ∈ qs, (splitOnDot q.Name).length < fuel) →
      parseQuestions fuel (pre ++ (qs.map Question.serialize).flatten ++ rest)
          qs.length pre.length acc =
        .done (acc ++ qs, pre.length + ((qs.map Question.serialize).flatten).length) := by
  intro qs
  induction qs with
  | nil =>
    intro fuel pre rest acc _ _
    simp [parseQuestions]
  | cons q qs' ih =>
    intro fuel pre rest acc hwf hfuel
    obtain ⟨hqn, hqt, hqc⟩ := hwf q (by simp)
    have hflat : ((q :: qs').map Question.serialize).flatten =
        q.serialize ++ (qs'.map Question.serialize).flatten := by simp
    have hqser : q.serialize =
        serializeDomain q.Name ++ u16be q.Typ ++ u16be q.Class := rfl
    have hB0 : pre ++ ((q :: qs').map Question.serialize).flatten ++ rest =
        pre ++ serializeDomain q.Name ++
          (u16be q.Typ ++ (u16be q.Class ++
            ((qs'.map Question.serialize).flatten ++ rest))) := by
      rw [hflat, hqser]; simp [List.append_assoc]
    have hB1 : pre ++ ((q :: qs').map Question.serialize).flatten ++ rest =
        (pre ++ serializeDomain q.Name) ++ u16be q.Typ ++
          (u16be q.Class ++ ((qs'.map Question.serialize).flatten ++ rest)) := by
      rw [hflat, hqser]; simp [List.append_assoc]
    have hB2 : pre ++ ((q :: qs').map Question.serialize).flatten ++ rest =
        (pre ++ serializeDomain q.Name ++ u16be q.Typ) ++ u16be q.Class ++
          ((qs'.map Question.serialize).flatten ++ rest) := by
      rw [hflat, hqser]; simp [List.append_assoc]
    have hB3 : pre ++ ((q :: qs').map Question.serialize).flatten ++ rest =
        (pre ++ q.serialize) ++ (qs'.map Question.serialize).flatten ++ rest := by
      rw [hflat]; simp [List.append_assoc]
    have hname : parseName fuel
        (pre ++ ((q :: qs').map Question.serialize).flatten ++ rest) pre.length =
        .ok q.Name (pre.length + (serializeDomain q.Name).length) := by
      rw [hB0]
      exact parseName_serializeDomain q.Name fuel pre _ hqn (hfuel q (by simp))
    have hlen1 : pre.length + (serializeDomain q.Name).length =
        (pre ++ serializeDomain q.Name).length := by simp
    have htype : readU16 (pre ++ ((q :: qs').map Question.serialize).flatten ++ rest)
        (pre.length + (serializeDomain q.Name).length) =
        some (q.Typ, pre.length + (serializeDomain q.Name).length + 2) := by
      rw [hB1, hlen1]
      exact readU16_append _ _ _ hqt
    have hlen2 : pre.length + (serializeDomain q.Name).length + 2 =
        (pre ++ serializeDomain q.Name ++ u16be q.Typ).length := by
      simp [u16be]
      omega
    have hclass : readU16 (pre ++ ((q :: qs').map Question.serialize).flatten ++ rest)
        (pre.length + (serializeDomain q.Name).length + 2) =
        some (q.Class, pre.length + (serializeDomain q.Name).length + 2 + 2) := by
      rw [hB2, hlen2]
      exact readU16_append _ _ _ hqc
    have hlen3 : pre.length + (serializeDomain q.Name).length + 2 + 2 =
        (pre ++ q.serialize).length := by
      simp [hqser, u16be]
      omega
    rw [List.length_cons, parseQuestions, hname]
    dsimp only
    rw [htype]
    dsimp only
    rw [hclass]
    dsimp only
    have heta : (⟨q.Name, q.Typ, q.Class⟩ : Question) = q := rfl
    rw [hlen3, hB3, heta, ih fuel (pre ++ q.serialize) rest (acc ++ [q])
      (fun x hx => hwf x (by simp [hx])) (fun x hx => hfuel x (by simp [hx]))]
    have hacc : (acc ++ [q]) ++ qs' = acc ++ q :: qs' := by simp
    have hlenf : (pre ++ q.serialize).length +
        ((qs'.map Question.serialize).flatten).length =
        pre.length + (((q :: qs').map Question.serialize).flatten).length := by
      rw [hflat]
      simp
      omega
    rw [hacc, hlenf]

/-! ### The answer section of a serialized message -/

theorem RR_serialize_length_pos (r : RR) : 0 < (RR.serialize r).length := by
  simp [RR.serialize, serializeDomain_eq, u16be, u32be]

theorem flatten_RR_length_pos (r2 : RR) (rs : List RR) :
    0 < (((r2 :: rs).map RR.serialize).flatten).length := by
  simp only [List.map_cons, List.flatten_cons, List.length_append]
  have := RR_serialize_length_pos r2
  omega

theorem parseRRs_serialized :
    ∀ (rs : List RR) (fuel : Nat) (pre rest : List Nat) (acc : List RR),
      (∀ r ∈ rs, wfRR r) →
      (∀ r ∈ rs, (splitOnDot r.Name).length < fuel) →
      (rest ≠ [] ∨ lastDataNonempty rs) →
      parseRRs fuel (pre ++ (rs.map RR.serialize).flatten ++ rest)
          rs.length pre.length acc =
        .done (acc ++ rs, pre.length + ((rs.map RR.serialize).flatten).length) := by
  intro rs
  induction rs with
  | nil =>
    intro fuel pre rest acc _ _ _
    simp [parseRRs]
  | cons r rs' ih =>
    intro fuel pre rest acc hwf hfuel hne
    obtain ⟨hrn, hrt, hrc, hrttl, hrl, hdl⟩ := hwf r (by simp)
    have hflat : ((r :: rs').map RR.serialize).flatten =
        r.serialize ++ (rs'.map RR.serialize).flatten := by simp
    have hrser : r.serialize =
        serializeDomain r.Name ++ u16be r.Typ ++ u16be r.Class ++ u32be r.TTL ++
          u16be r.Data.length ++ r.Data := by
      simp [RR.serialize, Nat.mod_eq_of_lt hdl]
    have hB0 : pre ++ ((r :: rs').map RR.serialize).flatten ++ rest =
        pre ++ serializeDomain r.Name ++
          (u16be r.Typ ++ (u16be r.Class ++ (u32be r.TTL ++ (u16be r.Data.length ++
            (r.Data ++ ((rs'.map RR.serialize).flatten ++ rest)))))) := by
      rw [hflat, hrser]; simp [List.append_assoc]
    have hB1 : pre ++ ((r :: rs').map RR.serialize).flatten ++ rest =
        (pre ++ serializeDomain r.Name) ++ u16be r.Typ ++
          (u16be r.Class ++ (u32be r.TTL ++ (u16be r.Data.length ++
            (r.Data ++ ((rs'.map RR.serialize).flatten ++ rest))))) := by
      rw [hflat, hrser]; simp [List.append_assoc]
    have hB2 : pre ++ ((r :: rs').map RR.serialize).flatten ++ rest =
        (pre ++ serializeDomain r.Name ++ u16be r.Typ) ++ u16be r.Class ++
          (u32be r.TTL ++ (u16be r.Data.length ++
            (r.Data ++ ((rs'.map RR.serialize).flatten ++ rest)))) := by
      rw [hflat, hrser]; simp [List.append_assoc]
    have hB3 : pre ++ ((r :: rs').map RR.serialize).flatten ++ rest =
        (pre ++ serializeDomain r.Name ++ u16be r.Typ ++ u16be r.Class) ++
          u32be r.TTL ++ (u16be r.Data.length ++
            (r.Data ++ ((rs'.map RR.serialize).flatten ++ rest))) := by
      rw [hflat, hrser]; simp [List.append_assoc]
    have hB4 : pre ++ ((r :: rs').map RR.serialize).flatten ++ rest =
        (pre ++ serializeDomain r.Name ++ u16be r.Typ ++ u16be r.Class ++
          u32be r.TTL) ++ u16be r.Data.length ++
            (r.Data ++ ((rs'.map RR.serialize).flatten ++ rest)) := by
      rw [hflat, hrser]; simp [List.append_assoc]
    have hB5 : pre ++ ((r :: rs').map RR.serialize).flatten ++ rest =
        (pre ++ serializeDomain r.Name ++ u16be r.Typ ++ u16be r.Class ++
          u32be r.TTL ++ u16be r.Data.length) ++
            (r.Data ++ ((rs'.map RR.serialize).flatten ++ rest)) := by
      rw [hflat, hrser]; simp [List.append_assoc]
    have hB6 : pre ++ ((r :: rs').map RR.serialize).flatten ++ rest =
        (pre ++ r.serialize) ++ (rs'.map RR.serialize).flatten ++ rest := by
      rw [hflat]; simp [List.append_assoc]
    have hname : parseName fuel
        (pre ++ ((r :: rs').map RR.serialize).flatten ++ rest) pre.length =
        .ok r.Name (pre.length + (serializeDomain r.Name).length) := by
      rw [hB0]
      exact parseName_serializeDomain r.Name fuel pre _ hrn (hfuel r (by simp))
    have hlen1 : pre.length + (serializeDomain r.Name).length =
        (pre ++ serializeDomain r.Name).length := by simp
    have htype : readU16 (pre ++ ((r :: rs').map RR.serialize).flatten ++ rest)
        (pre.length + (serializeDomain r.Name).length) =
        some (r.Typ, pre.length + (serializeDomain r.Name).length + 2) := by
      rw [hB1, hlen1]
      exact readU16_append _ _ _ hrt
    have hlen2 : pre.length + (serializeDomain r.Name).length + 2 =
        (pre ++ serializeDomain r.Name ++ u16be r.Typ).length := by
      simp [u16be]
      omega
    have hclass : readU16 (pre ++ ((r :: rs').map RR.serialize).flatten ++ rest)
        (pre.length + (serializeDomain r.Name).length + 2) =
        some (r.Class, pre.length + (serializeDomain r.Name).length + 2 + 2) := by
      rw [hB2, hlen2]
      exact readU16_append _ _ _ hrc
    have hlen3 : pre.length + (serializeDomain r.Name).length + 2 + 2 =
        (pre ++ serializeDomain r.Name ++ u16be r.Typ ++ u16be r.Class).length := by
      simp [u16be]
      omega
    have httl : readU32 (pre ++ ((r :: rs').map RR.serialize).flatten ++ rest)
        (pre.length + (serializeDomain r.Name).length + 2 + 2) =
        some (r.TTL, pre.length + (serializeDomain r.Name).length + 2 + 2 + 4) := by
      rw [hB3, hlen3]
      exact readU32_append _ _ _ hrttl
    have hlen4 : pre.length + (serializeDomain r.Name).length + 2 + 2 + 4 =
        (pre ++ serializeDomain r.Name ++ u16be r.Typ ++ u16be r.Class ++
          u32be r.TTL).length := by
      simp [u16be, u32be]
      omega
    have hdlen : readU16 (pre ++ ((r :: rs').map RR.serialize).flatten ++ rest)
        (pre.length + (serializeDomain r.Name).length + 2 + 2 + 4) =
        some (r.Data.length,
          pre.length + (serializeDomain r.Name).length + 2 + 2 + 4 + 2) := by
      rw [hB4, hlen4]
      exact readU16_append _ _ _ hdl
    have hlen5 : pre.length + (serializeDomain r.Name).length + 2 + 2 + 4 + 2 =
        (pre ++ serializeDomain r.Name ++ u16be r.Typ ++ u16be r.Class ++
          u32be r.TTL ++ u16be r.Data.length).length := by
      simp [u16be, u32be]
      omega
    -- the tail after the data-length field is nonempty
    have htail : 0 < r.Data.length + ((rs'.map RR.serialize).flatten).length +
        rest.length := by
      rcases hne with hrest | hlast
      · cases rest with
        | nil => exact absurd rfl hrest
        | cons a t => simp
      · cases rs' with
        | nil =>
          have hD : r.Data ≠ [] := hlast
          cases hd : r.Data with
          | nil => exact absurd hd hD
          | cons a t => simp [hd]
        | cons r2 rs2 =>
          have := flatten_RR_length_pos r2 rs2
          omega
    have hbuflen : (pre ++ ((r :: rs').map RR.serialize).flatten ++ rest).length =
        pre.length + (serializeDomain r.Name).length + 2 + 2 + 4 + 2 +
          (r.Data.length + (((rs'.map RR.serialize).flatten).length + rest.length)) := by
      rw [hflat, hrser]
      simp [u16be, u32be]
      omega
    rw [List.length_cons, parseRRs, hname]
    dsimp only
    rw [htype]
    dsimp only
    rw [hclass]
    dsimp only
    rw [httl]
    dsimp only
    rw [hdlen]
    dsimp only
    rw [if_neg (by rw [hbuflen]; omega)]
    have hmin : min r.Data.length
        ((pre ++ ((r :: rs').map RR.serialize).flatten ++ rest).length -
          (pre.length + (serializeDomain r.Name).length + 2 + 2 + 4 + 2)) =
        r.Data.length := by
      rw [hbuflen]; omega
    have hdrop : (pre ++ ((r :: rs').map RR.serialize).flatten ++ rest).drop
        (pre.length + (serializeDomain r.Name).length + 2 + 2 + 4 + 2) =
        r.Data ++ ((rs'.map RR.serialize).flatten ++ rest) := by
      rw [hB5, hlen5]
      exact drop_append_len _ _
    have htake : (r.Data ++ ((rs'.map RR.serialize).flatten ++ rest)).take
        r.Data.length = r.Data :=
      take_append_len _ _
    simp only [hmin, hdrop, htake, Nat.sub_self, List.replicate_zero,
      List.append_nil]
    have heta : (⟨r.Name, r.Typ, r.Class, r.TTL, r.Data.length, r.Data⟩ : RR) = r := by
      obtain ⟨n, t, c, ttl, len, d⟩ := r
      simp only at hrl
      rw [hrl]
    have hlen6 : pre.length + (serializeDomain r.Name).length + 2 + 2 + 4 + 2 +
        r.Data.length = (pre ++ r.serialize).length := by
      rw [hrser]
      simp [u16be, u32be]
      omega
    have hne2 : rest ≠ [] ∨ lastDataNonempty rs' := by
      rcases hne with hrest | hlast
      · exact Or.inl hrest
      · cases rs' with
        | nil => exact Or.inr trivial
        | cons r2 rs2 => exact Or.inr hlast
    rw [heta, hlen6, hB6, ih fuel (pre ++ r.serialize) rest (acc ++ [r])
      (fun x hx => hwf x (by simp [hx])) (fun x hx => hfuel x (by simp [hx])) hne2]
    have hacc : (acc ++ [r]) ++ rs' = acc ++ r :: rs' := by simp
    have hlenf : (pre ++ r.serialize).length +
        ((rs'.map RR.serialize).flatten).length =
        pre.length + (((r :: rs').map RR.serialize).flatten).length := by
      rw [hflat]
      simp
      omega
    rw [hacc, hlenf]

/-! ### Assembling the full message round trip -/

theorem header_serialize_length (h : Header) : (Header.serialize h).length = 12 := by
  simp [Header.serialize]

theorem length_le_flatten {α : Type} (f : α → List Nat) :
    ∀ (l : List α) (x : α), x ∈ l → (f x).length ≤ ((l.map f).flatten).length := by
  intro l
  induction l with
  | nil =>
    intro x hx
    simp at hx
  | cons y ys ih =>
    intro x hx
    simp only [List.map_cons, List.flatten_cons, List.length_append]
    rcases List.mem_cons.mp hx with h | h
    · subst h; omega
    · have := ih x h; omega

theorem splitLen_lt_serializeDomain (name : List Nat) :
    (splitOnDot name).length < (serializeDomain name).length := by
  have h1 := length_le_encLabels (splitOnDot name)
  rw [serializeDomain_eq]
  simp only [List.length_append, List.length_cons, List.length_nil]
  omega

theorem fuel_ok_question (m : DNSMessage) (q : Question) (hq : q ∈ m.Questions) :
    (splitOnDot q.Name).length < m.serialize.length + 1 := by
  have h1 := splitLen_lt_serializeDomain q.Name
  have h2 : (serializeDomain q.Name).length ≤ (Question.serialize q).length := by
    simp [Question.serialize]
  have h3 := length_le_flatten Question.serialize m.Questions q hq
  have h4 : ((m.Questions.map Question.serialize).flatten).length ≤
      m.serialize.length := by
    simp [DNSMessage.serialize]
    omega
  omega

theorem fuel_ok_answer (m : DNSMessage) (r : RR) (hr : r ∈ m.Answer) :
    (splitOnDot r.Name).length < m.serialize.length + 1 := by
  have h1 := splitLen_lt_serializeDomain r.Name
  have h2 : (serializeDomain r.Name).length ≤ (RR.serialize r).length := by
    simp [RR.serialize]
  have h3 := length_le_flatten RR.serialize m.Answer r hr
  have h4 : ((m.Answer.map RR.serialize).flatten).length ≤ m.serialize.length := by
    simp [DNSMessage.serialize]
    omega
  omega

/-- Claim C2, amended: for every well-formed message `m` with no
compressed names whose final answer record (if any) has nonempty data,
`decode(encode(m)) == m` with a nil error.  (The extra hypothesis is
forced by `claim_C2_counterexample`: a trailing empty data payload makes
the final `reader.Read` hit EOF.) -/
theorem claim_C2 (m : DNSMessage) (hwf : wfMessage m)
    (hlast : lastDataNonempty m.Answer) :
    parseDNSMessage m.serialize = .res m false := by
  obtain ⟨hh, hqd, han, hq, ha⟩ := hwf
  obtain ⟨hID, hQR, hOP, hAA, hTC, hRD, hRA, hZ, hRC, hQD, hAN, hNS, hAR⟩ := hh
  have hser2 : m.serialize = m.header.serialize ++
      (m.Questions.map Question.serialize).flatten ++
      (m.Answer.map RR.serialize).flatten := rfl
  have hhdr : parseHeader m.serialize = some m.header := by
    have hser3 : m.serialize = m.header.serialize ++
        ((m.Questions.map Question.serialize).flatten ++
         (m.Answer.map RR.serialize).flatten) := by
      rw [hser2]; simp [List.append_assoc]
    rw [hser3]
    exact parseHeader_serialize_append m.header _ hID hQR hOP hAA hTC hRD hRA
      hZ hRC hQD hAN hNS hAR
  have hqs := parseQuestions_serialized m.Questions (m.serialize.length + 1)
    m.header.serialize ((m.Answer.map RR.serialize).flatten) [] hq
    (fun x hx => fuel_ok_question m x hx)
  rw [header_serialize_length, ← hser2, List.nil_append] at hqs
  have hrs := parseRRs_serialized m.Answer (m.serialize.length + 1)
    (m.header.serialize ++ (m.Questions.map Question.serialize).flatten) [] [] ha
    (fun x hx => fuel_ok_answer m x hx) (Or.inr hlast)
  have hprelen : (m.header.serialize ++
      (m.Questions.map Question.serialize).flatten).length =
      12 + ((m.Questions.map Question.serialize).flatten).length := by
    simp [header_serialize_length]
  have hbufa : m.header.serialize ++
      (m.Questions.map Question.serialize).flatten ++
      (m.Answer.map RR.serialize).flatten ++ ([] : List Nat) = m.serialize := by
    rw [hser2]; simp
  rw [List.append_nil, hprelen, List.nil_append] at hrs
  rw [← hser2] at hrs
  unfold parseDNSMessage
  rw [hhdr]
  dsimp only
  rw [hqd, hqs]
  dsimp only
  rw [han, hrs]

/-- Concrete instantiation of `claim_C2`: a one-question, one-answer
message round-trips exactly. -/
theorem claim_C2_witness :
    (wfMessage (DNSMessage.mk ⟨0x1234, 0, 0, 0, 0, 1, 0, 5, 0, 1, 1, 0, 0⟩
        [⟨[97, 98], 1, 1⟩] [⟨[97, 98], 1, 1, 60, 3, [9, 9, 9]⟩]) ∧
     lastDataNonempty (DNSMessage.mk ⟨0x1234, 0, 0, 0, 0, 1, 0, 5, 0, 1, 1, 0, 0⟩
        [⟨[97, 98], 1, 1⟩] [⟨[97, 98], 1, 1, 60, 3, [9, 9, 9]⟩]).Answer) ∧
    parseDNSMessage (DNSMessage.serialize
        (DNSMessage.mk ⟨0x1234, 0, 0, 0, 0, 1, 0, 5, 0, 1, 1, 0, 0⟩
          [⟨[97, 98], 1, 1⟩] [⟨[97, 98], 1, 1, 60, 3, [9, 9, 9]⟩])) =
      .res (DNSMessage.mk ⟨0x1234, 0, 0, 0, 0, 1, 0, 5, 0, 1, 1, 0, 0⟩
        [⟨[97, 98], 1, 1⟩] [⟨[97, 98], 1, 1, 60, 3, [9, 9, 9]⟩]) false :=
  ⟨⟨by decide, by decide⟩,
   claim_C2 (DNSMessage.mk ⟨0x1234, 0, 0, 0, 0, 1, 0, 5, 0, 1, 1, 0, 0⟩
      [⟨[97, 98], 1, 1⟩] [⟨[97, 98], 1, 1, 60, 3, [9, 9, 9]⟩])
    (by decide) (by decide)⟩

/-- Claim C2 as stated is false: this message is well-formed in the
claim\'s sense (counts match, labels 1-63 bytes, `Length = len(Data)`),
yet decoding its encoding FAILS, because the final record\'s empty data
payload makes the Go `reader.Read` hit EOF at the end of the buffer.  So
`decode(encode(m)) ≠ m` (decode returns a non-nil error). -/
theorem claim_C2_counterexample :
    wfMessage (DNSMessage.mk ⟨0, 0, 0, 0, 0, 0, 0, 0, 0, 0, 1, 0, 0⟩ []
        [⟨[97], 1, 1, 60, 0, []⟩]) ∧
    parseDNSMessage (DNSMessage.serialize
        (DNSMessage.mk ⟨0, 0, 0, 0, 0, 0, 0, 0, 0, 0, 1, 0, 0⟩ []
          [⟨[97], 1, 1, 60, 0, []⟩])) ≠
      .res (DNSMessage.mk ⟨0, 0, 0, 0, 0, 0, 0, 0, 0, 0, 1, 0, 0⟩ []
        [⟨[97], 1, 1, 60, 0, []⟩]) false := by
  constructor
  · decide
  · decide

/-- Claim C4 is false of the code (the spec is the intent): in this
24-byte buffer the single answer record declares a 4-byte data payload
but only 1 byte remains.  `parseDNSMessage` must fail with
`TruncatedInput`; instead `reader.Read` silently returns the one
available byte and the decode SUCCEEDS (nil error) with the data
zero-padded to `[8, 0, 0, 0]`. -/
theorem claim_C4 :
    parseDNSMessage [0, 0, 0, 0, 0, 0, 0, 1, 0, 0, 0, 0,
        0, 0, 1, 0, 1, 0, 0, 0, 60, 0, 4, 8] =
      .res (DNSMessage.mk ⟨0, 0, 0, 0, 0, 0, 0, 0, 0, 0, 1, 0, 0⟩ []
        [⟨[], 1, 1, 60, 4, [8, 0, 0, 0]⟩]) false := by
  decide

/-- Claim C10 as stated is false on oversized payloads: for a record with
65536 data bytes, `uint16(len(Data))` truncates to 0, so the declared
16-bit length field on the wire is `u16be 0` while 65536 payload bytes
follow it. -/
theorem claim_C10_counterexample :
    RR.serialize (RR.mk [97] 1 1 60 4 (List.replicate 65536 0)) =
      [1, 97, 0] ++ [0, 1] ++ [0, 1] ++ [0, 0, 0, 60] ++ u16be 0 ++
        List.replicate 65536 0 ∧
    (List.replicate 65536 (0 : Nat)).length = 65536 ∧ (65536 : Nat) ≠ 0 := by
  refine ⟨?_, by rw [List.length_replicate], by omega⟩
  have h1 : (List.replicate 65536 (0 : Nat)).length % 65536 = 0 := by
    rw [List.length_replicate]
  unfold RR.serialize
  dsimp only
  rw [h1]
  exact rfl

/-- Claim C10, amended with only the 16-bit bound the counterexample
forces: for every record whose data length fits in 16 bits, the encoder
writes the declared 16-bit data-length field as exactly `u16be
(len(Data))` immediately before the `Data` payload bytes — so the field
equals the actual number of payload bytes written after it — and
`RR.serialize` never reads the in-memory `Length` field: changing it
leaves the encoded bytes unchanged. -/
theorem claim_C10 (r : RR) (hd : r.Data.length < 65536) :
    RR.serialize r =
      (serializeDomain r.Name ++ u16be r.Typ ++ u16be r.Class ++ u32be r.TTL) ++
        u16be r.Data.length ++ r.Data ∧
    ∀ L : Nat, RR.serialize ⟨r.Name, r.Typ, r.Class, r.TTL, L, r.Data⟩ =
      RR.serialize r := by
  constructor
  · rw [RR.serialize, Nat.mod_eq_of_lt hd]
  · intro L
    rfl

/-- Concrete instantiation of `claim_C10`: the in-memory `Length` field
9999 disagrees with the 3 data bytes, yet the wire form carries the
declared field `u16be 3` directly before the 3 payload bytes, and
overwriting `Length` does not change the encoding. -/
theorem claim_C10_witness :
    ((RR.mk [97] 7 9 300 9999 [1, 2, 3]).Data.length < 65536 ∧
     (RR.mk [97] 7 9 300 9999 [1, 2, 3]).Length ≠
       (RR.mk [97] 7 9 300 9999 [1, 2, 3]).Data.length) ∧
    (RR.serialize (RR.mk [97] 7 9 300 9999 [1, 2, 3]) =
      (serializeDomain [97] ++ u16be 7 ++ u16be 9 ++ u32be 300) ++
        u16be 3 ++ [1, 2, 3] ∧
     ∀ L : Nat, RR.serialize ⟨[97], 7, 9, 300, L, [1, 2, 3]⟩ =
       RR.serialize (RR.mk [97] 7 9 300 9999 [1, 2, 3])) :=
  ⟨⟨by decide, by decide⟩, claim_C10 (RR.mk [97] 7 9 300 9999 [1, 2, 3]) (by decide)⟩

end DNS